import Mathlib

/-!
Verification of the storage read path, the query controller admission
algorithm, and the launcher configuration validation of the influxdb
launcher package.

The storage reader (ReadFilter / ReadGroup / ReadWindowAggregate) and the
query controller are exercised by the tests in
src/cmd/influxd/launcher/launcher.go but their implementations live
outside src/, so they are modelled from the specification, with the
concrete behaviour pinned by the expected tables of those tests.
Launcher.run is embedded from src/cmd/influxd/launcher/launcher.go.

Times are integer nanoseconds.  Sample values and aggregate outputs are
exact rationals in a plain normalized-pair representation; every
concrete value appearing in the tests is a small dyadic rational, on
which float64 arithmetic is exact, so the rational model is faithful for
the verified inputs.
-/

/-- An exact rational as a normalized numerator-denominator pair (the
denominator positive, the pair coprime); all values in the model are
built by qMk or qOfInt, so structural equality is value equality. -/
structure Q where
  num : Int
  den : Int
deriving Repr, DecidableEq

/-- Build a normalized rational from a numerator and denominator. -/
def qMk (n d : Int) : Q :=
  if d = 0 then ⟨0, 1⟩
  else
    let n2 := if d < 0 then -n else n
    let d2 := if d < 0 then -d else d
    let g : Int := (Int.natAbs n2).gcd (Int.natAbs d2)
    if g = 0 then ⟨0, 1⟩ else ⟨n2 / g, d2 / g⟩

/-- The rational n/1. -/
def qOfInt (n : Int) : Q := ⟨n, 1⟩

/-- Exact rational addition. -/
def qAdd (a b : Q) : Q := qMk (a.num * b.den + b.num * a.den) (a.den * b.den)

/-- Exact rational division. -/
def qDiv (a b : Q) : Q := qMk (a.num * b.den) (a.den * b.num)

/-- Strict order on normalized rationals (denominators positive). -/
def qLt (a b : Q) : Bool := a.num * b.den < b.num * a.den

/-- Nanoseconds in n seconds. -/
def sec (n : Int) : Int := n * 1000000000

/-- The largest 64-bit signed integer, the sentinel value of windowEvery
meaning the whole bounds is one window. -/
def maxInt64 : Int := 9223372036854775807

/-- A half-open time interval [start, stop). -/
structure Bounds where
  start : Int
  stop : Int
deriving Repr, DecidableEq

/-- One stored sample of a series: a timestamp and a value. -/
structure Sample where
  time : Int
  value : Q
deriving Repr, DecidableEq

/-- The aggregate kinds supported by ReadWindowAggregate. -/
inductive AggKind
  | count
  | sum
  | min
  | max
  | mean
  | first
  | last
deriving Repr, DecidableEq

/-- The timeColumn option of a ReadWindowAggregateSpec: _start or _stop. -/
inductive TimeCol
  | start
  | stop
deriving Repr, DecidableEq

/-- Scalar column types, as far as the claims need them. -/
inductive ValType
  | tInt
  | tFloat
deriving Repr, DecidableEq

/-- Modelled from the spec: the window parameters of a
ReadWindowAggregateSpec (bounds, windowEvery and offset in nanoseconds,
createEmpty, timeColumn). -/
structure WindowAggSpec where
  bounds : Bounds
  windowEvery : Int
  offset : Int
  createEmpty : Bool
  timeColumn : Option TimeCol
deriving Repr, DecidableEq

/-- A series: its distinguishing tag value and its samples, time-ascending. -/
structure Series where
  tag : String
  samples : List Sample
deriving Repr, DecidableEq

/-- One output row: an optional _time value (none when absent or null)
and an optional _value (none meaning null). -/
structure Row where
  time : Option Int
  value : Option Q
deriving Repr, DecidableEq

/-- One output table of the reader: the series tag, the _start and _stop
values of its group key, whether a _time column is present, the type of
the _value column, and its rows. -/
structure OutTable where
  tag : String
  keyStart : Int
  keyStop : Int
  hasTimeCol : Bool
  valueType : ValType
  rows : List Row
deriving Repr, DecidableEq

/-- The samples of a series that fall inside a window. -/
def samplesIn (w : Bounds) (ss : List Sample) : List Sample :=
  ss.filter fun s => decide (w.start ≤ s.time ∧ s.time < w.stop)

/-- Modelled from the spec: window grid edges lie at k*windowEvery + offset
for all integers k. -/
def windowEdge (every off k : Int) : Int := k * every + off

/-- Index of the first grid window meeting the bounds. -/
def windowIdxLo (b : Bounds) (every off : Int) : Int := (b.start - off).fdiv every

/-- Index of the last grid window meeting the bounds. -/
def windowIdxHi (b : Bounds) (every off : Int) : Int := (b.stop - 1 - off).fdiv every

/-- Grid window k, truncated to the read bounds. -/
def windowAt (b : Bounds) (every off k : Int) : Bounds :=
  ⟨max b.start (windowEdge every off k), min b.stop (windowEdge every off (k + 1))⟩

/-- Modelled from the spec: the clipped window grid of a
ReadWindowAggregateSpec.  If windowEvery is MaxInt64 the whole bounds is
a single window; otherwise edges lie at k*windowEvery + (offset mod
windowEvery) and the first and last windows are truncated to the bounds.
The reader implementation is not under src/. -/
def windows (sp : WindowAggSpec) : List Bounds :=
  if sp.bounds.stop ≤ sp.bounds.start then []
  else if sp.windowEvery = maxInt64 then [sp.bounds]
  else if sp.windowEvery ≤ 0 then []
  else
    let off := sp.offset % sp.windowEvery
    let lo := windowIdxLo sp.bounds sp.windowEvery off
    let hi := windowIdxHi sp.bounds sp.windowEvery off
    (List.range (hi - lo + 1).toNat).map fun i =>
      windowAt sp.bounds sp.windowEvery off (lo + i)

/-- Fold selecting the sample a strict comparison prefers, keeping the
earlier of equals; on a time-ascending list this gives the
earliest-timestamp tie-break of min and max. -/
def selectBy (better : Sample → Sample → Bool) : List Sample → Option Sample
  | [] => none
  | x :: xs => some (xs.foldl (fun acc s => if better s acc then s else acc) x)

/-- Sum of the values of a list of samples. -/
def sumValues (xs : List Sample) : Q := xs.foldl (fun a s => qAdd a s.value) (qOfInt 0)

/-- Modelled from the spec: the single aggregate row over the samples of
one nonempty window.  count and sum and mean emit no _time; min and max
emit the _time of the chosen extremum, earliest timestamp winning ties;
first and last use the smallest and largest _time in the window; mean is
the exact quotient. -/
def aggRow (agg : AggKind) (xs : List Sample) : Row :=
  match agg with
  | .count => ⟨none, some (qOfInt xs.length)⟩
  | .sum => ⟨none, some (sumValues xs)⟩
  | .mean => ⟨none, some (qDiv (sumValues xs) (qOfInt xs.length))⟩
  | .min =>
    match selectBy (fun s acc => qLt s.value acc.value) xs with
    | some s => ⟨some s.time, some s.value⟩
    | none => ⟨none, none⟩
  | .max =>
    match selectBy (fun s acc => qLt acc.value s.value) xs with
    | some s => ⟨some s.time, some s.value⟩
    | none => ⟨none, none⟩
  | .first =>
    match xs.head? with
    | some s => ⟨some s.time, some s.value⟩
    | none => ⟨none, none⟩
  | .last =>
    match xs.getLast? with
    | some s => ⟨some s.time, some s.value⟩
    | none => ⟨none, none⟩

/-- Modelled from the spec: count and sum (and mean) emit only _start,
_stop, _value; min, max, first, last also emit _time. -/
def aggHasTimeCol (agg : AggKind) : Bool :=
  match agg with
  | .min | .max | .first | .last => true
  | _ => false

/-- Modelled from the spec: the type of the output _value column; count
is an integer count, mean is a float even over integer inputs, the rest
keep the input type. -/
def aggValType (agg : AggKind) (input : ValType) : ValType :=
  match agg with
  | .count => .tInt
  | .mean => .tFloat
  | _ => input

/-- Modelled from the spec: the rows an empty window contributes when
each window is its own table and createEmpty is set: count emits value
0, sum and mean a null value, and min, max, first, last an empty table
(empty _time and _value columns). -/
def emptyWindowRows (agg : AggKind) : List Row :=
  match agg with
  | .count => [⟨none, some (qOfInt 0)⟩]
  | .sum | .mean => [⟨none, none⟩]
  | _ => []

/-- Modelled from the spec: without timeColumn, each window of a series
becomes its own output table whose group key carries the window _start
and _stop; windows with no samples are omitted unless createEmpty. -/
def seriesWindowTables (agg : AggKind) (sp : WindowAggSpec) (vt : ValType)
    (s : Series) : List OutTable :=
  (windows sp).filterMap fun w =>
    let xs := samplesIn w s.samples
    if xs.isEmpty then
      if sp.createEmpty then
        some ⟨s.tag, w.start, w.stop, aggHasTimeCol agg, aggValType agg vt,
          emptyWindowRows agg⟩
      else none
    else
      some ⟨s.tag, w.start, w.stop, aggHasTimeCol agg, aggValType agg vt,
        [aggRow agg xs]⟩

/-- The boundary of a window chosen by the timeColumn option. -/
def boundary (tc : TimeCol) (w : Bounds) : Int :=
  match tc with
  | .start => w.start
  | .stop => w.stop

/-- Modelled from the spec and the tests under src/: the row one window
contributes to the merged table of a series under timeColumn.  _time
holds the chosen window boundary.  For an empty window with createEmpty,
count emits value 0 and sum and mean a null value, while min, max, first
and last emit no row at all, as pinned by
TestStorageReader_ReadWindowFirstTimeColumn and
TestStorageReader_ReadWindowAggregate_CreateEmptyByStopTime in
src/cmd/influxd/launcher/launcher.go. -/
def mergedWindowRow (agg : AggKind) (createEmpty : Bool) (tc : TimeCol)
    (w : Bounds) (xs : List Sample) : Option Row :=
  if xs.isEmpty then
    if createEmpty then
      match agg with
      | .count => some ⟨some (boundary tc w), some (qOfInt 0)⟩
      | .sum | .mean => some ⟨some (boundary tc w), none⟩
      | _ => none
    else none
  else some ⟨some (boundary tc w), (aggRow agg xs).value⟩

/-- Modelled from the spec: under timeColumn all windows of one series
merge into one table whose group key carries the scalar _start and _stop
of the whole bounds, with _time a non-key column holding the chosen
boundary per row. -/
def seriesMergedTable (agg : AggKind) (sp : WindowAggSpec) (vt : ValType)
    (tc : TimeCol) (s : Series) : OutTable :=
  ⟨s.tag, sp.bounds.start, sp.bounds.stop, true, aggValType agg vt,
    (windows sp).filterMap fun w =>
      mergedWindowRow agg sp.createEmpty tc w (samplesIn w s.samples)⟩

/-- Modelled from the spec: ReadWindowAggregate over a list of series,
dispatching on the timeColumn option.  The reader implementation is not
under src/; behaviour is pinned by the TestStorageReader window tests in
src/cmd/influxd/launcher/launcher.go. -/
def readWindowAggregate (agg : AggKind) (sp : WindowAggSpec) (vt : ValType)
    (series : List Series) : List OutTable :=
  match sp.timeColumn with
  | none => series.flatMap (seriesWindowTables agg sp vt)
  | some tc => series.map (seriesMergedTable agg sp vt tc)

/-- One ReadFilter output table: the series tag and its in-bounds rows. -/
structure FilterTable where
  tag : String
  rows : List Sample
deriving Repr, DecidableEq

/-- Modelled from the spec: ReadFilter returns, per series, one table of
all samples inside the bounds. -/
def readFilter (b : Bounds) (series : List Series) : List FilterTable :=
  series.map fun s => ⟨s.tag, samplesIn b s.samples⟩

/-- Modelled from the spec: ReadGroup with an aggregate method emits one
terminal aggregate row per group over the whole bounds, with no
windowing; the group key carries the scalar _start and _stop of the
bounds. -/
def readGroup (agg : AggKind) (b : Bounds) (vt : ValType)
    (series : List Series) : List OutTable :=
  series.map fun s =>
    ⟨s.tag, b.start, b.stop, aggHasTimeCol agg, aggValType agg vt,
      [aggRow agg (samplesIn b s.samples)]⟩

/-- Stated from the words of the spec, for comparison with readGroup:
ReadFilter followed by a single terminal aggregate per group. -/
def readGroupViaFilter (agg : AggKind) (b : Bounds) (vt : ValType)
    (series : List Series) : List OutTable :=
  (readFilter b series).map fun t =>
    ⟨t.tag, b.start, b.stop, aggHasTimeCol agg, aggValType agg vt,
      [aggRow agg t.rows]⟩

/-- The sample stream of the launcher test generators: samples at
start + k*delta for k < n, values cycling through vals
(gen.NewTimeFloatValuesSequence and friends in launcher.go). -/
def genSamples (start delta : Int) (vals : List Q) (n : Nat) : List Sample :=
  (List.range n).map fun (k : Nat) =>
    { time := start + (k : Int) * delta, value := vals.getD (k % vals.length) (qOfInt 0) }

/-- The three-tag series set of the float-generator tests: tags a-0,
a-1, a-2, each with the same sample stream. -/
def threeTagSeries (ss : List Sample) : List Series :=
  [⟨"a-0", ss⟩, ⟨"a-1", ss⟩, ⟨"a-2", ss⟩]

/-- Sample stream of TestStorageReader_ReadWindowAggregate and of
TestStorageReader_ReadGroup: values 1,2,3,4 at 10 second spacing over
[00:00, 00:02). -/
def t1Samples : List Sample :=
  genSamples 0 (sec 10) [qOfInt 1, qOfInt 2, qOfInt 3, qOfInt 4] 12

/-- Sample stream of TestStorageReader_ReadWindowAggregate_TruncatedBoundsCreateEmpty:
values 1,2,3,4 at 15 second spacing over [00:00, 00:01). -/
def t2Samples : List Sample :=
  genSamples 0 (sec 15) [qOfInt 1, qOfInt 2, qOfInt 3, qOfInt 4] 4

/-- Sample stream of TestStorageReader_ReadWindowAggregate_Mean: integer
values 1,2,3,4 at 5 second spacing over [00:00, 00:01). -/
def t3Samples : List Sample :=
  genSamples 0 (sec 5) [qOfInt 1, qOfInt 2, qOfInt 3, qOfInt 4] 12

/-- Sample stream of TestStorageReader_ReadWindowFirstTimeColumn and of
TestStorageReader_WindowSumOffsetTimeColumn: integer values 1,2 at 20
second spacing over [00:00, 00:01). -/
def t4Samples : List Sample :=
  genSamples 0 (sec 20) [qOfInt 1, qOfInt 2] 3

/-- Spec of TestStorageReader_ReadWindowAggregate: bounds [00:00,00:02),
windowEvery 30s. -/
def spC2 : WindowAggSpec := ⟨⟨0, sec 120⟩, sec 30, 0, false, none⟩

/-- Spec of TestStorageReader_ReadWindowAggregate_ByStopTime: bounds
[00:00,00:02), windowEvery 30s, timeColumn _stop. -/
def spC3 : WindowAggSpec := ⟨⟨0, sec 120⟩, sec 30, 0, false, some .stop⟩

/-- Spec of TestStorageReader_ReadWindowAggregate_TruncatedBoundsCreateEmpty:
read bounds [00:00:05,00:00:25), windowEvery 10s, createEmpty. -/
def spC4 : WindowAggSpec := ⟨⟨sec 5, sec 25⟩, sec 10, 0, true, none⟩

/-- Spec of the windowed-mean-with-offset case of
TestStorageReader_ReadWindowAggregate_Mean: bounds [00:00,00:01),
windowEvery 10s, offset 2s. -/
def spC5 : WindowAggSpec := ⟨⟨0, sec 60⟩, sec 10, sec 2, false, none⟩

/-- Spec of TestStorageReader_WindowSumOffsetTimeColumn: bounds
[00:00,00:01), windowEvery 10s, offset 18s, createEmpty, timeColumn _stop. -/
def spC6 : WindowAggSpec := ⟨⟨0, sec 60⟩, sec 10, sec 18, true, some .stop⟩

/-- spC6 with the offset already reduced modulo windowEvery (8s). -/
def spC6r : WindowAggSpec := ⟨⟨0, sec 60⟩, sec 10, sec 8, true, some .stop⟩

/-- Spec of TestStorageReader_ReadWindowFirstTimeColumn: bounds
[00:00,00:01), windowEvery 10s, createEmpty, timeColumn _stop. -/
def spC1 : WindowAggSpec := ⟨⟨0, sec 60⟩, sec 10, 0, true, some .stop⟩

/-- Spec of the unwindowed-mean case of
TestStorageReader_ReadWindowAggregate_Mean: windowEvery MaxInt64. -/
def spC7 : WindowAggSpec := ⟨⟨0, sec 60⟩, maxInt64, 0, false, none⟩

/-- Modelled from the spec: the resource configuration of the query
controller (control.Config in Launcher.run). -/
structure CtrlConfig where
  concurrencyQuota : Nat
  queueSize : Nat
  initialMemoryBytesQuotaPerQuery : Nat
  maxMemoryBytes : Nat
deriving Repr, DecidableEq

/-- Modelled from the spec: the controller state the admission algorithm
acts on, the running set and the FIFO queue of query ids. -/
structure CtrlState where
  running : List Nat
  queued : List Nat
deriving Repr, DecidableEq

/-- The error kind of a failed submission. -/
inductive CtrlError
  | resourceExhausted
deriving Repr, DecidableEq

/-- Modelled from the spec: global memory used, each running query
holding its initial reservation. -/
def globalUsed (cfg : CtrlConfig) (st : CtrlState) : Nat :=
  st.running.length * cfg.initialMemoryBytesQuotaPerQuery

/-- Modelled from the spec: a query may be promoted to running when
running is below concurrencyQuota and the initial reservation fits under
maxMemoryBytes. -/
def canRun (cfg : CtrlConfig) (st : CtrlState) : Bool :=
  decide (st.running.length < cfg.concurrencyQuota) &&
  decide (globalUsed cfg st + cfg.initialMemoryBytesQuotaPerQuery ≤ cfg.maxMemoryBytes)

/-- The outcome of a submission: the new controller state, or a rejection. -/
inductive SubmitResult
  | ok (st : CtrlState)
  | error (e : CtrlError)
deriving Repr, DecidableEq

/-- Modelled from the spec: the controller admission algorithm on
submit.  If the queue is full the submission is rejected fast with
resource exhausted; if the query can run it is promoted to running with
its reservation; otherwise it is appended to the FIFO queue.  The
controller implementation is not under src/; Launcher.run wires its
configuration at src/cmd/influxd/launcher/launcher.go lines 750-762. -/
def ctrlSubmit (cfg : CtrlConfig) (st : CtrlState) (q : Nat) : SubmitResult :=
  if cfg.queueSize ≤ st.queued.length then .error .resourceExhausted
  else if canRun cfg st then .ok ⟨st.running ++ [q], st.queued⟩
  else .ok ⟨st.running, st.queued ++ [q]⟩

/-- Modelled from the spec: iterate the queue head in order, promoting
as many queued queries as fit; the fuel is the queue length. -/
def promote (cfg : CtrlConfig) : Nat → CtrlState → CtrlState
  | 0, st => st
  | n + 1, st =>
    match st.queued with
    | [] => st
    | q :: rest =>
      if canRun cfg st then promote cfg n ⟨st.running ++ [q], rest⟩ else st

/-- Modelled from the spec: when a running query terminates it releases
its reservation and queued queries are promoted in FIFO order as far as
they fit. -/
def ctrlComplete (cfg : CtrlConfig) (st : CtrlState) (q : Nat) : CtrlState :=
  promote cfg st.queued.length ⟨st.running.erase q, st.queued⟩

/-- The controller configuration of the queueing scenario:
concurrencyQuota 2, queueSize 2, with ample memory. -/
def c8cfg : CtrlConfig := ⟨2, 2, 1024, 1000000000⟩

/-- Character table of the lowercase fallback of the zap level parser:
the ASCII letters, plus the Kelvin sign and the dotted capital I, the
only two further code points whose simple Unicode lowercase mapping (the
mapping bytes.ToLower applies per rune) lands in ASCII.  Every other
character is left unchanged by lowerChar; since the level names are pure
ASCII, membership of the lowered string among them therefore agrees with
Go bytes.ToLower for every input string. -/
def lowerPairs : List (Char × Char) :=
  [('A', 'a'), ('B', 'b'), ('C', 'c'), ('D', 'd'), ('E', 'e'), ('F', 'f'),
   ('G', 'g'), ('H', 'h'), ('I', 'i'), ('J', 'j'), ('K', 'k'), ('L', 'l'),
   ('M', 'm'), ('N', 'n'), ('O', 'o'), ('P', 'p'), ('Q', 'q'), ('R', 'r'),
   ('S', 's'), ('T', 't'), ('U', 'u'), ('V', 'v'), ('W', 'w'), ('X', 'x'),
   ('Y', 'y'), ('Z', 'z'), ('K', 'k'), ('İ', 'i')]

/-- Lowercase one character per the table, identity elsewhere. -/
def lowerChar (c : Char) : Char :=
  match lowerPairs.find? (fun p => decide (p.1 = c)) with
  | some p => p.2
  | none => c

/-- The lowercase fallback applied to a whole string (bytes.ToLower as
far as level-name membership is concerned). -/
def strLower (s : String) : String := ⟨s.data.map lowerChar⟩

/-- The level strings matched by one unmarshalText attempt of the zap
level parser (zapcore.Level.UnmarshalText, an external collaborator of
Launcher.run at launcher.go line 552): the named levels in lower or
upper case, or the empty string. -/
def zapLevelNames : List String :=
  ["debug", "DEBUG", "info", "INFO", "", "warn", "WARN", "error", "ERROR",
   "dpanic", "DPANIC", "panic", "PANIC", "fatal", "FATAL"]

/-- Whether zapcore.Level.Set accepts the string: UnmarshalText tries
the text as written and then its bytes.ToLower image, so mixed-case
names such as Warn are accepted as well. -/
def zapLevelSetOk (s : String) : Bool :=
  zapLevelNames.contains s || zapLevelNames.contains (strLower s)

/-- The configuration fields of Launcher that its run method validates
before starting services (src/cmd/influxd/launcher/launcher.go). -/
structure LauncherConfig where
  logLevel : String
  storeType : String
  secretStore : String
deriving Repr, DecidableEq

/-- The externally visible stages of Launcher.run, in source order:
opening bolt (line 598), applying migrations (line 642), opening the
storage engine (line 724), creating the query controller (line 750), and
binding the HTTP listener (line 1152). -/
inductive RunStep
  | openBolt
  | applyMigrations
  | openEngine
  | createQueryController
  | bindHTTPListener
deriving Repr, DecidableEq

/-- The outcome of Launcher.run: the stages reached, and the error
returned, if any. -/
structure RunResult where
  steps : List RunStep
  error : Option String
deriving Repr, DecidableEq

/-- The error message of Launcher.run for an unparsable log level
(launcher.go line 553). -/
def logLevelErrMsg : String :=
  "unknown log level; supported levels are debug, info, and error"

/-- The error message of Launcher.run for an unknown store type
(launcher.go line 626). -/
def storeTypeErrMsg (st : String) : String :=
  "unknown store type " ++ st ++ "; expected bolt or memory"

/-- The error message of Launcher.run for an unknown secret service
(launcher.go line 693). -/
def secretStoreErrMsg (ss : String) : String :=
  "unknown secret service \"" ++ ss ++ "\", expected \"bolt\" or \"vault\""

/-- Launcher.run (src/cmd/influxd/launcher/launcher.go lines 544-1160),
restricted to its configuration validation and stage order; external
effects (bolt open, migrations, engine open, listener bind) are modelled
as succeeding.  The log level check (line 552) delegates to
zapcore.Level.Set; the store type switch is at lines 609-629, the secret
store switch at lines 680-696. -/
def launcherRun (cfg : LauncherConfig) : RunResult :=
  if zapLevelSetOk cfg.logLevel = false then
    ⟨[], some logLevelErrMsg⟩
  else if cfg.storeType = "bolt" ∨ cfg.storeType = "memory" then
    if cfg.secretStore = "bolt" ∨ cfg.secretStore = "vault" then
      ⟨[.openBolt, .applyMigrations, .openEngine, .createQueryController,
        .bindHTTPListener], none⟩
    else
      ⟨[.openBolt, .applyMigrations], some (secretStoreErrMsg cfg.secretStore)⟩
  else
    ⟨[.openBolt], some (storeTypeErrMsg cfg.storeType)⟩

/-- Length of a filterMap whose function is total on the list. -/
theorem length_filterMap_of_isSome {α β : Type} (f : α → Option β) :
    ∀ l : List α, (∀ a ∈ l, (f a).isSome) → (l.filterMap f).length = l.length := by
  intro l
  induction l with
  | nil => intro _; rfl
  | cons x xs ih =>
    intro h
    obtain ⟨b, hb⟩ := Option.isSome_iff_exists.mp (h x (List.mem_cons_self x xs))
    simp only [List.filterMap_cons, hb, List.length_cons]
    rw [ih fun a ha => h a (List.mem_cons_of_mem x ha)]

/-- Length of a filterMap whose definedness agrees with a predicate. -/
theorem length_filterMap_eq_length_filter {α β : Type} (f : α → Option β) (p : α → Bool) :
    ∀ l : List α, (∀ a ∈ l, (f a).isSome = p a) →
      (l.filterMap f).length = (l.filter p).length := by
  intro l
  induction l with
  | nil => intro _; rfl
  | cons x xs ih =>
    intro h
    have hx := h x (List.mem_cons_self x xs)
    have hrest := ih fun a ha => h a (List.mem_cons_of_mem x ha)
    cases hp : p x with
    | true =>
      rw [hp] at hx
      obtain ⟨b, hb⟩ := Option.isSome_iff_exists.mp hx
      simp [List.filterMap_cons, List.filter_cons, hb, hp, hrest]
    | false =>
      rw [hp] at hx
      have hb : f x = none := Option.not_isSome_iff_eq_none.mp (by simp [hx])
      simp [List.filterMap_cons, List.filter_cons, hb, hp, hrest]

/-- Every table emitted in own-window-table mode carries the time-column
presence and value type determined by the aggregate kind. -/
theorem mem_seriesWindowTables_fields {agg : AggKind} {sp : WindowAggSpec}
    {vt : ValType} {s : Series} {t : OutTable}
    (h : t ∈ seriesWindowTables agg sp vt s) :
    t.hasTimeCol = aggHasTimeCol agg ∧ t.valueType = aggValType agg vt := by
  unfold seriesWindowTables at h
  obtain ⟨w, _, hfw⟩ := List.mem_filterMap.mp h
  dsimp only at hfw
  split at hfw
  · split at hfw
    · obtain rfl := Option.some.inj hfw
      exact ⟨rfl, rfl⟩
    · exact Option.noConfusion hfw
  · obtain rfl := Option.some.inj hfw
    exact ⟨rfl, rfl⟩

/-- C8: with concurrencyQuota 2 and queueSize 2, the first two submitted
queries run, the next two queue, the fifth submission is rejected fast
with resource exhausted, completing a running query promotes the queue
head, and in general any submission with the queue full fails with
resource exhausted. -/
theorem C8_controller_queueing :
    (ctrlSubmit c8cfg ⟨[], []⟩ 1 = .ok ⟨[1], []⟩) ∧
    (ctrlSubmit c8cfg ⟨[1], []⟩ 2 = .ok ⟨[1, 2], []⟩) ∧
    (ctrlSubmit c8cfg ⟨[1, 2], []⟩ 3 = .ok ⟨[1, 2], [3]⟩) ∧
    (ctrlSubmit c8cfg ⟨[1, 2], [3]⟩ 4 = .ok ⟨[1, 2], [3, 4]⟩) ∧
    (ctrlSubmit c8cfg ⟨[1, 2], [3, 4]⟩ 5 = .error .resourceExhausted) ∧
    (ctrlComplete c8cfg ⟨[1, 2], [3, 4]⟩ 1 = ⟨[2, 3], [4]⟩) ∧
    (∀ (cfg : CtrlConfig) (st : CtrlState) (q : Nat),
      cfg.queueSize ≤ st.queued.length →
      ctrlSubmit cfg st q = .error .resourceExhausted) := by
  refine ⟨by decide, by decide, by decide, by decide, by decide, by decide, ?_⟩
  intro cfg st q h
  unfold ctrlSubmit
  rw [if_pos h]

/-- Witness for C8 at the queue-full state of the scenario. -/
theorem C8_controller_queueing_witness :
    c8cfg.queueSize ≤ (CtrlState.mk [1, 2] [3, 4]).queued.length ∧
    ctrlSubmit c8cfg ⟨[1, 2], [3, 4]⟩ 5 = .error .resourceExhausted :=
  ⟨by decide, C8_controller_queueing.2.2.2.2.2.2 c8cfg ⟨[1, 2], [3, 4]⟩ 5 (by decide)⟩

/-- C10 counterexample: Launcher.run with log level warn, or the
mixed-case Warn, proceeds without error, although neither is one of
debug, info, error; the claim that any level outside that set is
rejected is false. -/
theorem C10_counterexample :
    (launcherRun ⟨"warn", "bolt", "bolt"⟩).error = none ∧
    (launcherRun ⟨"Warn", "bolt", "bolt"⟩).error = none ∧
    "warn" ∉ (["debug", "info", "error"] : List String) ∧
    "Warn" ∉ (["debug", "info", "error"] : List String) := by decide

/-- C10 (amended): Launcher.run fails fast on invalid configuration:
an unrecognized log level (not a level accepted by the zap parser)
returns the unknown-log-level error before any service starts; with a
valid log level, a store flag that is neither bolt nor memory returns an
error naming the expected values; and any error return happens before
the engine is opened or the HTTP listener is bound. -/
theorem C10_run_validation_amended :
    ∀ cfg : LauncherConfig,
      (zapLevelSetOk cfg.logLevel = false →
        launcherRun cfg = ⟨[], some logLevelErrMsg⟩) ∧
      (zapLevelSetOk cfg.logLevel = true →
        cfg.storeType ≠ "bolt" → cfg.storeType ≠ "memory" →
        launcherRun cfg = ⟨[RunStep.openBolt], some (storeTypeErrMsg cfg.storeType)⟩) ∧
      (∀ e : RunStep, e = RunStep.openEngine ∨ e = RunStep.bindHTTPListener →
        (launcherRun cfg).error ≠ none → e ∉ (launcherRun cfg).steps) := by
  intro cfg
  refine ⟨fun h1 => by simp [launcherRun, h1], fun h1 hb hm => ?_, ?_⟩
  · simp [launcherRun, h1, hb, hm]
  · intro e he hne
    by_cases h1 : zapLevelSetOk cfg.logLevel = false
    · rcases he with rfl | rfl <;> simp [launcherRun, h1]
    · by_cases h2 : cfg.storeType = "bolt" ∨ cfg.storeType = "memory"
      · by_cases h3 : cfg.secretStore = "bolt" ∨ cfg.secretStore = "vault"
        · exact absurd (by simp [launcherRun, h1, h2, h3]) hne
        · rcases he with rfl | rfl <;> simp [launcherRun, h1, h2, h3]
      · rcases he with rfl | rfl <;> simp [launcherRun, h1, h2]

/-- Witness for C10 (amended) at a bad log level and at a bad store type. -/
theorem C10_run_validation_amended_witness :
    zapLevelSetOk "banana" = false ∧
    launcherRun ⟨"banana", "bolt", "bolt"⟩ = ⟨[], some logLevelErrMsg⟩ ∧
    launcherRun ⟨"info", "postgres", "bolt"⟩ =
      ⟨[RunStep.openBolt], some (storeTypeErrMsg "postgres")⟩ :=
  ⟨by decide,
   (C10_run_validation_amended ⟨"banana", "bolt", "bolt"⟩).1 (by decide),
   (C10_run_validation_amended ⟨"info", "postgres", "bolt"⟩).2.1 (by decide)
     (by decide) (by decide)⟩

/-- C2: a windowed count over values 1,2,3,4 at 10 second spacing across
three t0 tag values on [00:00, 00:02) with windowEvery 30s returns 12
tables (3 tags times 4 windows), each with a single _value of 3; and any
windowed count or sum without timeColumn emits tables with no _time
column (only _start, _stop and _value). -/
theorem C2_window_count :
    (readWindowAggregate .count spC2 .tFloat (threeTagSeries t1Samples) =
      [⟨"a-0", 0, sec 30, false, .tInt, [⟨none, some (qOfInt 3)⟩]⟩,
       ⟨"a-0", sec 30, sec 60, false, .tInt, [⟨none, some (qOfInt 3)⟩]⟩,
       ⟨"a-0", sec 60, sec 90, false, .tInt, [⟨none, some (qOfInt 3)⟩]⟩,
       ⟨"a-0", sec 90, sec 120, false, .tInt, [⟨none, some (qOfInt 3)⟩]⟩,
       ⟨"a-1", 0, sec 30, false, .tInt, [⟨none, some (qOfInt 3)⟩]⟩,
       ⟨"a-1", sec 30, sec 60, false, .tInt, [⟨none, some (qOfInt 3)⟩]⟩,
       ⟨"a-1", sec 60, sec 90, false, .tInt, [⟨none, some (qOfInt 3)⟩]⟩,
       ⟨"a-1", sec 90, sec 120, false, .tInt, [⟨none, some (qOfInt 3)⟩]⟩,
       ⟨"a-2", 0, sec 30, false, .tInt, [⟨none, some (qOfInt 3)⟩]⟩,
       ⟨"a-2", sec 30, sec 60, false, .tInt, [⟨none, some (qOfInt 3)⟩]⟩,
       ⟨"a-2", sec 60, sec 90, false, .tInt, [⟨none, some (qOfInt 3)⟩]⟩,
       ⟨"a-2", sec 90, sec 120, false, .tInt, [⟨none, some (qOfInt 3)⟩]⟩]) ∧
    ((readWindowAggregate .count spC2 .tFloat (threeTagSeries t1Samples)).length = 12) ∧
    (∀ agg : AggKind, agg = .count ∨ agg = .sum →
      ∀ (sp : WindowAggSpec) (vt : ValType) (series : List Series) (t : OutTable),
        sp.timeColumn = none →
        t ∈ readWindowAggregate agg sp vt series → t.hasTimeCol = false) := by
  refine ⟨by decide, by decide, ?_⟩
  intro agg hagg sp vt series t htc ht
  simp only [readWindowAggregate, htc] at ht
  obtain ⟨s, _, hts⟩ := List.mem_flatMap.mp ht
  have hf := (mem_seriesWindowTables_fields hts).1
  rcases hagg with rfl | rfl <;> exact hf

/-- Witness for C2 on the first table of the count scenario. -/
theorem C2_window_count_witness :
    spC2.timeColumn = none ∧
    (⟨"a-0", 0, sec 30, false, ValType.tInt, [⟨none, some (qOfInt 3)⟩]⟩ : OutTable) ∈
      readWindowAggregate .count spC2 .tFloat (threeTagSeries t1Samples) ∧
    (⟨"a-0", 0, sec 30, false, ValType.tInt,
      [⟨none, some (qOfInt 3)⟩]⟩ : OutTable).hasTimeCol = false :=
  ⟨rfl, by decide,
   C2_window_count.2.2 .count (Or.inl rfl) spC2 .tFloat (threeTagSeries t1Samples)
     _ rfl (by decide)⟩

/-- C3: with timeColumn set, all windows of one series merge into a
single table whose group key carries the scalar _start and _stop of the
whole bounds and whose _time per row is the chosen window boundary; in
particular min with timeColumn _stop over the 30s windows of
[00:00,00:02) gives, per tag, one table with _time 30s,60s,90s,120s and
_value 1,1,1,2. -/
theorem C3_timeColumn_merge :
    (readWindowAggregate .min spC3 .tFloat (threeTagSeries t1Samples) =
      [⟨"a-0", 0, sec 120, true, .tFloat,
        [⟨some (sec 30), some (qOfInt 1)⟩, ⟨some (sec 60), some (qOfInt 1)⟩,
         ⟨some (sec 90), some (qOfInt 1)⟩, ⟨some (sec 120), some (qOfInt 2)⟩]⟩,
       ⟨"a-1", 0, sec 120, true, .tFloat,
        [⟨some (sec 30), some (qOfInt 1)⟩, ⟨some (sec 60), some (qOfInt 1)⟩,
         ⟨some (sec 90), some (qOfInt 1)⟩, ⟨some (sec 120), some (qOfInt 2)⟩]⟩,
       ⟨"a-2", 0, sec 120, true, .tFloat,
        [⟨some (sec 30), some (qOfInt 1)⟩, ⟨some (sec 60), some (qOfInt 1)⟩,
         ⟨some (sec 90), some (qOfInt 1)⟩, ⟨some (sec 120), some (qOfInt 2)⟩]⟩]) ∧
    (∀ (agg : AggKind) (sp : WindowAggSpec) (vt : ValType) (tc : TimeCol)
        (series : List Series), sp.timeColumn = some tc →
      (readWindowAggregate agg sp vt series).length = series.length ∧
      ∀ t ∈ readWindowAggregate agg sp vt series,
        t.keyStart = sp.bounds.start ∧ t.keyStop = sp.bounds.stop ∧
        ∀ r ∈ t.rows, ∃ w ∈ windows sp, r.time = some (boundary tc w)) := by
  refine ⟨by decide, ?_⟩
  intro agg sp vt tc series htc
  constructor
  · simp [readWindowAggregate, htc]
  · intro t ht
    simp only [readWindowAggregate, htc] at ht
    obtain ⟨s, _, rfl⟩ := List.mem_map.mp ht
    refine ⟨rfl, rfl, ?_⟩
    intro r hr
    simp only [seriesMergedTable] at hr
    obtain ⟨w, hw, hfw⟩ := List.mem_filterMap.mp hr
    refine ⟨w, hw, ?_⟩
    unfold mergedWindowRow at hfw
    split at hfw
    · split at hfw
      · cases agg <;>
          first
          | exact Option.noConfusion hfw
          | (obtain rfl := Option.some.inj hfw; rfl)
      · exact Option.noConfusion hfw
    · obtain rfl := Option.some.inj hfw
      rfl

/-- Witness for C3 at the min byStop scenario. -/
theorem C3_timeColumn_merge_witness :
    spC3.timeColumn = some TimeCol.stop ∧
    (readWindowAggregate .min spC3 .tFloat (threeTagSeries t1Samples)).length =
      (threeTagSeries t1Samples).length :=
  ⟨rfl, (C3_timeColumn_merge.2 .min spC3 .tFloat .stop (threeTagSeries t1Samples) rfl).1⟩

/-- C4: the first and last windows are truncated to the read bounds, a
sample lies in a window exactly when its clamped edges enclose the
timestamp, and counting the 15s data on read bounds [00:00:05, 00:00:25)
with windowEvery 10s and createEmpty gives the three windows
[5s,10s), [10s,20s), [20s,25s) with counts 0, 1, 0 per tag. -/
theorem C4_truncated_windows :
    (windows spC4 = [⟨sec 5, sec 10⟩, ⟨sec 10, sec 20⟩, ⟨sec 20, sec 25⟩]) ∧
    (readWindowAggregate .count spC4 .tFloat (threeTagSeries t2Samples) =
      [⟨"a-0", sec 5, sec 10, false, .tInt, [⟨none, some (qOfInt 0)⟩]⟩,
       ⟨"a-0", sec 10, sec 20, false, .tInt, [⟨none, some (qOfInt 1)⟩]⟩,
       ⟨"a-0", sec 20, sec 25, false, .tInt, [⟨none, some (qOfInt 0)⟩]⟩,
       ⟨"a-1", sec 5, sec 10, false, .tInt, [⟨none, some (qOfInt 0)⟩]⟩,
       ⟨"a-1", sec 10, sec 20, false, .tInt, [⟨none, some (qOfInt 1)⟩]⟩,
       ⟨"a-1", sec 20, sec 25, false, .tInt, [⟨none, some (qOfInt 0)⟩]⟩,
       ⟨"a-2", sec 5, sec 10, false, .tInt, [⟨none, some (qOfInt 0)⟩]⟩,
       ⟨"a-2", sec 10, sec 20, false, .tInt, [⟨none, some (qOfInt 1)⟩]⟩,
       ⟨"a-2", sec 20, sec 25, false, .tInt, [⟨none, some (qOfInt 0)⟩]⟩]) ∧
    (∀ sp : WindowAggSpec, sp.windowEvery ≠ maxInt64 →
      ∀ w ∈ windows sp, ∃ k : Int,
        w.start = max sp.bounds.start
          (windowEdge sp.windowEvery (sp.offset % sp.windowEvery) k) ∧
        w.stop = min sp.bounds.stop
          (windowEdge sp.windowEvery (sp.offset % sp.windowEvery) (k + 1))) ∧
    (∀ (w : Bounds) (ss : List Sample) (x : Sample),
      x ∈ samplesIn w ss ↔ x ∈ ss ∧ (w.start ≤ x.time ∧ x.time < w.stop)) := by
  refine ⟨by decide, by decide, ?_, ?_⟩
  · intro sp hne w hw
    unfold windows at hw
    by_cases h1 : sp.bounds.stop ≤ sp.bounds.start
    · rw [if_pos h1] at hw
      exact absurd hw (List.not_mem_nil w)
    · by_cases h3 : sp.windowEvery ≤ 0
      · rw [if_neg h1, if_neg hne, if_pos h3] at hw
        exact absurd hw (List.not_mem_nil w)
      · rw [if_neg h1, if_neg hne, if_neg h3] at hw
        dsimp only at hw
        obtain ⟨i, _, rfl⟩ := List.mem_map.mp hw
        exact ⟨windowIdxLo sp.bounds sp.windowEvery
          (sp.offset % sp.windowEvery) + i, rfl, rfl⟩
  · intro w ss x
    simp [samplesIn, List.mem_filter]

/-- Witness for C4 on the first truncated window. -/
theorem C4_truncated_windows_witness :
    spC4.windowEvery ≠ maxInt64 ∧
    (⟨sec 5, sec 10⟩ : Bounds) ∈ windows spC4 ∧
    (∃ k : Int,
      (Bounds.mk (sec 5) (sec 10)).start = max spC4.bounds.start
        (windowEdge spC4.windowEvery (spC4.offset % spC4.windowEvery) k) ∧
      (Bounds.mk (sec 5) (sec 10)).stop = min spC4.bounds.stop
        (windowEdge spC4.windowEvery (spC4.offset % spC4.windowEvery) (k + 1))) :=
  ⟨by decide, by decide,
   C4_truncated_windows.2.2.1 spC4 (by decide) ⟨sec 5, sec 10⟩ (by decide)⟩

/-- C5: the windowed mean with windowEvery 10s and offset 2s over the
integer pattern 1,2,3,4 at 5 second spacing on [00:00,00:01) yields the
truncated leading window [0,2s) with mean 1, the full windows up to
[42s,52s) each with mean 5/2, and the truncated final window [52s,60s)
with mean 4; and a mean always emits a float _value column, also over
integer input. -/
theorem C5_mean_offset :
    (readWindowAggregate .mean spC5 .tInt [⟨"a0", t3Samples⟩] =
      [⟨"a0", 0, sec 2, false, .tFloat, [⟨none, some (qOfInt 1)⟩]⟩,
       ⟨"a0", sec 2, sec 12, false, .tFloat, [⟨none, some (qMk 5 2)⟩]⟩,
       ⟨"a0", sec 12, sec 22, false, .tFloat, [⟨none, some (qMk 5 2)⟩]⟩,
       ⟨"a0", sec 22, sec 32, false, .tFloat, [⟨none, some (qMk 5 2)⟩]⟩,
       ⟨"a0", sec 32, sec 42, false, .tFloat, [⟨none, some (qMk 5 2)⟩]⟩,
       ⟨"a0", sec 42, sec 52, false, .tFloat, [⟨none, some (qMk 5 2)⟩]⟩,
       ⟨"a0", sec 52, sec 60, false, .tFloat, [⟨none, some (qOfInt 4)⟩]⟩]) ∧
    (∀ (sp : WindowAggSpec) (vt : ValType) (series : List Series),
      ∀ t ∈ readWindowAggregate .mean sp vt series, t.valueType = .tFloat) := by
  refine ⟨by decide, ?_⟩
  intro sp vt series t ht
  cases htc : sp.timeColumn with
  | none =>
    simp only [readWindowAggregate, htc] at ht
    obtain ⟨s, _, hts⟩ := List.mem_flatMap.mp ht
    exact (mem_seriesWindowTables_fields hts).2
  | some tc =>
    simp only [readWindowAggregate, htc] at ht
    obtain ⟨s, _, rfl⟩ := List.mem_map.mp ht
    rfl

/-- Witness for C5 on the leading truncated window. -/
theorem C5_mean_offset_witness :
    (⟨"a0", 0, sec 2, false, ValType.tFloat, [⟨none, some (qOfInt 1)⟩]⟩ : OutTable) ∈
      readWindowAggregate .mean spC5 .tInt [⟨"a0", t3Samples⟩] ∧
    (⟨"a0", 0, sec 2, false, ValType.tFloat,
      [⟨none, some (qOfInt 1)⟩]⟩ : OutTable).valueType = .tFloat :=
  ⟨by decide, C5_mean_offset.2 spC5 .tInt [⟨"a0", t3Samples⟩] _ (by decide)⟩

/-- Reducing the offset modulo windowEvery leaves the window grid
unchanged. -/
theorem windows_offset_emod (b : Bounds) (e o : Int) (ce : Bool) (tc : Option TimeCol) :
    windows ⟨b, e, o % e, ce, tc⟩ = windows ⟨b, e, o, ce, tc⟩ := by
  unfold windows
  simp only [Int.emod_emod_of_dvd o (dvd_refl e)]

/-- Length of a flatMap whose pieces are singletons. -/
theorem flatMap_singleton_length {α β : Type} (f : α → List β) :
    ∀ l : List α, (∀ a ∈ l, (f a).length = 1) → (l.flatMap f).length = l.length := by
  intro l
  induction l with
  | nil => intro _; rfl
  | cons x xs ih =>
    intro h
    simp [List.flatMap_cons, h x (List.mem_cons_self x xs),
      ih fun a ha => h a (List.mem_cons_of_mem x ha)]
    omega

/-- C6: any ReadWindowAggregateSpec behaves exactly like the same spec
with the offset reduced modulo windowEvery; with windowEvery 10s, offset
18s produces the same window grid and the same tables as offset 8s, at
8-second phase, as in TestStorageReader_WindowSumOffsetTimeColumn. -/
theorem C6_offset_modulo :
    (∀ (agg : AggKind) (sp : WindowAggSpec) (vt : ValType) (series : List Series),
      readWindowAggregate agg sp vt series =
        readWindowAggregate agg
          ⟨sp.bounds, sp.windowEvery, sp.offset % sp.windowEvery,
            sp.createEmpty, sp.timeColumn⟩ vt series) ∧
    (windows spC6 = windows spC6r) ∧
    (readWindowAggregate .sum spC6 .tInt [⟨"a0", t4Samples⟩] =
      readWindowAggregate .sum spC6r .tInt [⟨"a0", t4Samples⟩]) ∧
    (readWindowAggregate .sum spC6 .tInt [⟨"a0", t4Samples⟩] =
      [⟨"a0", 0, sec 60, true, .tInt,
        [⟨some (sec 8), some (qOfInt 1)⟩, ⟨some (sec 18), none⟩,
         ⟨some (sec 28), some (qOfInt 2)⟩, ⟨some (sec 38), none⟩,
         ⟨some (sec 48), some (qOfInt 1)⟩, ⟨some (sec 58), none⟩,
         ⟨some (sec 60), none⟩]⟩]) := by
  refine ⟨?_, by decide, by decide, by decide⟩
  intro agg sp vt series
  obtain ⟨b, e, o, ce, tc⟩ := sp
  unfold readWindowAggregate
  dsimp only
  cases tc with
  | none =>
    refine congrArg series.flatMap (funext fun s => ?_)
    unfold seriesWindowTables
    rw [windows_offset_emod b e o ce none]
  | some tc =>
    refine congrArg (List.map · series) (funext fun s => ?_)
    unfold seriesMergedTable
    rw [windows_offset_emod b e o ce (some tc)]

/-- C7: with windowEvery MaxInt64 the whole bounds is a single window and
the reader emits one aggregate row per series whose _start and _stop are
the bounds; the unwindowed mean of the integer pattern 1,2,3,4 over
[00:00,00:01) is the single float row 5/2. -/
theorem C7_single_window :
    (readWindowAggregate .mean spC7 .tInt [⟨"a0", t3Samples⟩] =
      [⟨"a0", 0, sec 60, false, .tFloat, [⟨none, some (qMk 5 2)⟩]⟩]) ∧
    (∀ (sp : WindowAggSpec) (vt : ValType) (series : List Series) (agg : AggKind),
      sp.windowEvery = maxInt64 → sp.timeColumn = none →
      sp.bounds.start < sp.bounds.stop →
      (∀ s ∈ series, samplesIn sp.bounds s.samples ≠ []) →
      windows sp = [sp.bounds] ∧
      (readWindowAggregate agg sp vt series).length = series.length ∧
      ∀ t ∈ readWindowAggregate agg sp vt series,
        t.keyStart = sp.bounds.start ∧ t.keyStop = sp.bounds.stop ∧
        t.rows.length = 1) := by
  refine ⟨by decide, ?_⟩
  intro sp vt series agg he htc hb hs
  have hwin : windows sp = [sp.bounds] := by
    unfold windows
    rw [if_neg (not_le.mpr hb), if_pos he]
  have hone : ∀ s ∈ series, seriesWindowTables agg sp vt s =
      [⟨s.tag, sp.bounds.start, sp.bounds.stop, aggHasTimeCol agg, aggValType agg vt,
        [aggRow agg (samplesIn sp.bounds s.samples)]⟩] := by
    intro s hsm
    unfold seriesWindowTables
    rw [hwin]
    simp [List.filterMap_cons, hs s hsm]
  refine ⟨hwin, ?_, ?_⟩
  · simp only [readWindowAggregate, htc]
    apply flatMap_singleton_length
    intro s hsm
    rw [hone s hsm]
    rfl
  · intro t ht
    simp only [readWindowAggregate, htc] at ht
    obtain ⟨s, hsm, hts⟩ := List.mem_flatMap.mp ht
    rw [hone s hsm] at hts
    simp only [List.mem_singleton] at hts
    subst hts
    exact ⟨rfl, rfl, rfl⟩

/-- Witness for C7 at the unwindowed-mean input. -/
theorem C7_single_window_witness :
    spC7.windowEvery = maxInt64 ∧ spC7.timeColumn = none ∧
    spC7.bounds.start < spC7.bounds.stop ∧
    (∀ s ∈ ([⟨"a0", t3Samples⟩] : List Series), samplesIn spC7.bounds s.samples ≠ []) ∧
    windows spC7 = [spC7.bounds] ∧
    (readWindowAggregate .mean spC7 .tInt [⟨"a0", t3Samples⟩]).length = 1 :=
  ⟨rfl, rfl, by decide, by decide,
   (C7_single_window.2 spC7 .tInt [⟨"a0", t3Samples⟩] .mean rfl rfl (by decide)
     (by decide)).1,
   (C7_single_window.2 spC7 .tInt [⟨"a0", t3Samples⟩] .mean rfl rfl (by decide)
     (by decide)).2.1⟩

/-- C9: ReadGroup with an aggregate equals ReadFilter followed by one
terminal aggregate per group with no windowing (one row per group over
the whole bounds); over the 1,2,3,4 pattern grouped per tag, min gives
_value 1 at _time 00:00:00 and max gives _value 4 at _time 00:00:30. -/
theorem C9_read_group :
    (readGroup .min ⟨0, sec 120⟩ .tFloat (threeTagSeries t1Samples) =
      [⟨"a-0", 0, sec 120, true, .tFloat, [⟨some 0, some (qOfInt 1)⟩]⟩,
       ⟨"a-1", 0, sec 120, true, .tFloat, [⟨some 0, some (qOfInt 1)⟩]⟩,
       ⟨"a-2", 0, sec 120, true, .tFloat, [⟨some 0, some (qOfInt 1)⟩]⟩]) ∧
    (readGroup .max ⟨0, sec 120⟩ .tFloat (threeTagSeries t1Samples) =
      [⟨"a-0", 0, sec 120, true, .tFloat, [⟨some (sec 30), some (qOfInt 4)⟩]⟩,
       ⟨"a-1", 0, sec 120, true, .tFloat, [⟨some (sec 30), some (qOfInt 4)⟩]⟩,
       ⟨"a-2", 0, sec 120, true, .tFloat, [⟨some (sec 30), some (qOfInt 4)⟩]⟩]) ∧
    (∀ (agg : AggKind) (b : Bounds) (vt : ValType) (series : List Series),
      readGroup agg b vt series = readGroupViaFilter agg b vt series) ∧
    (∀ (agg : AggKind) (b : Bounds) (vt : ValType) (series : List Series),
      ∀ t ∈ readGroup agg b vt series, t.rows.length = 1) := by
  refine ⟨by decide, by decide, ?_, ?_⟩
  · intro agg b vt series
    unfold readGroup readGroupViaFilter readFilter
    rw [List.map_map]
    rfl
  · intro agg b vt series t ht
    simp only [readGroup] at ht
    obtain ⟨s, _, rfl⟩ := List.mem_map.mp ht
    rfl

/-- Witness for C9 on the min group table of tag a-0. -/
theorem C9_read_group_witness :
    (⟨"a-0", 0, sec 120, true, ValType.tFloat,
      [⟨some 0, some (qOfInt 1)⟩]⟩ : OutTable) ∈
      readGroup .min ⟨0, sec 120⟩ .tFloat (threeTagSeries t1Samples) ∧
    (⟨"a-0", 0, sec 120, true, ValType.tFloat,
      [⟨some 0, some (qOfInt 1)⟩]⟩ : OutTable).rows.length = 1 :=
  ⟨by decide,
   C9_read_group.2.2.2 .min ⟨0, sec 120⟩ .tFloat (threeTagSeries t1Samples)
     _ (by decide)⟩

/-- C1 counterexample: first with createEmpty and timeColumn _stop over
the 20s data of TestStorageReader_ReadWindowFirstTimeColumn: the clipped
grid has 6 windows but the merged table carries only 3 rows, one per
nonempty window, so not every window of the grid produces an output row
(no null-timestamp rows are emitted). -/
theorem C1_counterexample :
    ((readWindowAggregate .first spC1 .tInt [⟨"a0", t4Samples⟩]).map fun t =>
      t.rows.length) = [3] ∧
    (windows spC1).length = 6 ∧ spC1.createEmpty = true := by decide

/-- C1 (amended): with createEmpty, every window of the clipped grid
produces an output table when each window is its own table: count emits
value 0 for a window with no samples, sum and mean emit a null value,
and min, max, first, last emit an empty table (empty _time column).
When windows of one series are merged under timeColumn, count rows are
emitted for every window (0 on empty), sum and mean rows for every
window (null on empty), while min, max, first, last omit empty windows
entirely. -/
theorem C1_createEmpty_amended :
    ∀ (sp : WindowAggSpec) (vt : ValType) (s : Series) (tc : TimeCol),
      sp.createEmpty = true →
      (∀ agg : AggKind, (seriesWindowTables agg sp vt s).length = (windows sp).length) ∧
      (∀ agg : AggKind, ∀ w ∈ windows sp, samplesIn w s.samples = [] →
        (⟨s.tag, w.start, w.stop, aggHasTimeCol agg, aggValType agg vt,
          emptyWindowRows agg⟩ : OutTable) ∈ seriesWindowTables agg sp vt s) ∧
      (emptyWindowRows .count = [⟨none, some (qOfInt 0)⟩]) ∧
      (emptyWindowRows .sum = [⟨none, none⟩] ∧ emptyWindowRows .mean = [⟨none, none⟩]) ∧
      (∀ agg : AggKind, agg = .min ∨ agg = .max ∨ agg = .first ∨ agg = .last →
        emptyWindowRows agg = []) ∧
      (∀ agg : AggKind, agg = .count ∨ agg = .sum ∨ agg = .mean →
        (seriesMergedTable agg sp vt tc s).rows.length = (windows sp).length) ∧
      (∀ agg : AggKind, agg = .min ∨ agg = .max ∨ agg = .first ∨ agg = .last →
        (seriesMergedTable agg sp vt tc s).rows.length =
          ((windows sp).filter fun w => !(samplesIn w s.samples).isEmpty).length) := by
  intro sp vt s tc hce
  refine ⟨?_, ?_, rfl, ⟨rfl, rfl⟩, ?_, ?_, ?_⟩
  · intro agg
    unfold seriesWindowTables
    apply length_filterMap_of_isSome
    intro w _
    dsimp only
    by_cases he : (samplesIn w s.samples).isEmpty <;> simp [he, hce]
  · intro agg w hw hemp
    unfold seriesWindowTables
    apply List.mem_filterMap.mpr
    refine ⟨w, hw, ?_⟩
    dsimp only
    simp [hemp, hce]
  · intro agg h
    rcases h with rfl | rfl | rfl | rfl <;> rfl
  · intro agg h
    simp only [seriesMergedTable]
    apply length_filterMap_of_isSome
    intro w _
    unfold mergedWindowRow
    by_cases he : (samplesIn w s.samples).isEmpty
    · rcases h with rfl | rfl | rfl <;> simp [he, hce]
    · simp [he]
  · intro agg h
    simp only [seriesMergedTable]
    apply length_filterMap_eq_length_filter
    intro w _
    unfold mergedWindowRow
    by_cases he : (samplesIn w s.samples).isEmpty
    · rcases h with rfl | rfl | rfl | rfl <;> simp [he, hce]
    · simp [he]

/-- Witness for C1 (amended) at the data of
TestStorageReader_ReadWindowFirstTimeColumn. -/
theorem C1_createEmpty_amended_witness :
    spC1.createEmpty = true ∧
    (seriesWindowTables AggKind.count spC1 ValType.tInt ⟨"a0", t4Samples⟩).length =
      (windows spC1).length ∧
    (seriesMergedTable AggKind.first spC1 ValType.tInt TimeCol.stop
      ⟨"a0", t4Samples⟩).rows.length =
      ((windows spC1).filter fun w => !(samplesIn w t4Samples).isEmpty).length :=
  ⟨rfl,
   (C1_createEmpty_amended spC1 .tInt ⟨"a0", t4Samples⟩ .stop rfl).1 .count,
   (C1_createEmpty_amended spC1 .tInt ⟨"a0", t4Samples⟩ .stop rfl).2.2.2.2.2.2 .first
     (Or.inr (Or.inr (Or.inl rfl)))⟩
